import Mathlib

/-
Verification of scripts/extract_images.py (PDF image extraction CLI).

The script is a thin pipeline over the PyMuPDF (fitz) library:
open the document, walk its pages, enumerate per-page image usages,
decode each image to raw bytes plus a format tag, resolve the placement
rectangle, base64-encode the bytes, and emit a JSON envelope.

The fitz library is modelled as an environment of fallible calls
(Except String), since any of its calls may raise; Python exceptions are
modelled by their message string.  The Python standard library's
base64.b64encode is modelled by a concrete RFC 4648 encoder (standard
alphabet, '=' padding, no line wrapping), together with a reference
decoder used to state the round-trip property.
-/

deriving instance DecidableEq for Except

namespace LumaExtract

/-- Numeric type for page-geometry coordinates.  The script converts the
rectangle attributes with float(); the numeric values are modelled as
rationals, which the script merely passes through unchanged. -/
abbrev Coord := Rat

/-- A placement rectangle as returned by page.get_image_rects.  The script
reads the attributes x0, y0, width and height, so the model carries exactly
those library-provided values. -/
structure Rect where
  x0 : Coord
  y0 : Coord
  width : Coord
  height : Coord
  deriving DecidableEq

/-- The bounding box of an extracted image record: the four fields x, y,
width, height built at lines 53-61 of the script. -/
structure BBox where
  x : Coord
  y : Coord
  width : Coord
  height : Coord
  deriving DecidableEq

/-- One entry of the list returned by page.get_images(full=True).  The script
only reads img[0], the cross-reference number, so the model carries that
component. -/
structure ImgEntry where
  xref : Nat
  deriving DecidableEq

/-- The dictionary returned by doc.extract_image(xref): the script reads the
keys image (raw decoded bytes) and ext (format tag).  Bytes are modelled
as naturals below 256. -/
structure BaseImage where
  image : List Nat
  ext : String
  deriving DecidableEq

/-- One extracted image record as appended at lines 67-73 of the script. -/
structure Record where
  pageNumber : Nat
  imageIndex : Nat
  format : String
  base64 : List Char
  bbox : BBox
  deriving DecidableEq

/-- One page of the opened document, as the script uses it: the fallible
call page.get_images(full=True) and the fallible per-xref call
page.get_image_rects. -/
structure FitzPage where
  get_images : Except String (List ImgEntry)
  get_image_rects : Nat → Except String (List Rect)

/-- The opened document: its page list (page.count / indexing) and the
fallible call doc.extract_image. -/
structure FitzDoc where
  pages : List FitzPage
  extract_image : Nat → Except String BaseImage

/-- The fitz library environment: fitz.open on a path either yields an opened
document or raises. -/
structure FitzEnv where
  openDoc : String → Except String FitzDoc

/-- The standard base64 alphabet (RFC 4648), in value order: this is the
alphabet used by Python's base64.b64encode. -/
def b64AlphabetChars : List Char :=
  ['A', 'B', 'C', 'D', 'E', 'F', 'G', 'H', 'I', 'J', 'K', 'L', 'M',
   'N', 'O', 'P', 'Q', 'R', 'S', 'T', 'U', 'V', 'W', 'X', 'Y', 'Z',
   'a', 'b', 'c', 'd', 'e', 'f', 'g', 'h', 'i', 'j', 'k', 'l', 'm',
   'n', 'o', 'p', 'q', 'r', 's', 't', 'u', 'v', 'w', 'x', 'y', 'z',
   '0', '1', '2', '3', '4', '5', '6', '7', '8', '9', '+', '/']

/-- The character encoding a 6-bit value. -/
def b64Char (n : Nat) : Char :=
  b64AlphabetChars.getD n '?'

/-- The 6-bit value of an alphabet character, if any. -/
def b64CharVal (c : Char) : Option Nat :=
  b64AlphabetChars.findIdx? (fun x => x == c)

/-- Model of Python's base64.b64encode on a byte sequence: standard alphabet,
'=' padding, no line wrapping. -/
def b64encode : List Nat → List Char
  | [] => []
  | [a] =>
      [b64Char (a / 4), b64Char (a % 4 * 16), '=', '=']
  | [a, b] =>
      [b64Char (a / 4), b64Char (a % 4 * 16 + b / 16), b64Char (b % 16 * 4), '=']
  | a :: b :: c :: rest =>
      b64Char (a / 4) :: b64Char (a % 4 * 16 + b / 16) ::
        b64Char (b % 16 * 4 + c / 64) :: b64Char (c % 64) :: b64encode rest

/-- Reference decoder for one base64 quadruple, used to state the round-trip
property of the encoding. -/
def b64decodeQuad (c1 c2 c3 c4 : Char) : Option (List Nat) :=
  match b64CharVal c1, b64CharVal c2 with
  | some v1, some v2 =>
      if c3 = '=' then
        if c4 = '=' then some [v1 * 4 + v2 / 16] else none
      else
        match b64CharVal c3 with
        | some v3 =>
            if c4 = '=' then
              some [v1 * 4 + v2 / 16, v2 % 16 * 16 + v3 / 4]
            else
              match b64CharVal c4 with
              | some v4 =>
                  some [v1 * 4 + v2 / 16, v2 % 16 * 16 + v3 / 4, v3 % 4 * 64 + v4]
              | none => none
        | none => none
  | _, _ => none

/-- Reference base64 decoder (inverse of b64encode on well-formed bytes). -/
def b64decode : List Char → Option (List Nat)
  | c1 :: c2 :: c3 :: c4 :: rest =>
      match b64decodeQuad c1 c2 c3 c4, b64decode rest with
      | some chunk, some tail => some (chunk ++ tail)
      | _, _ => none
  | [] => some []
  | _ => none

/-- The bounding box built at lines 50-61 of the script: the first rectangle
returned by page.get_image_rects when there is one, the all-zero box
otherwise. -/
def bboxOfRects : List Rect → BBox
  | [] => { x := 0, y := 0, width := 0, height := 0 }
  | r :: _ => { x := r.x0, y := r.y0, width := r.width, height := r.height }

/-- The record appended at lines 67-73 of the script, for the usage at
0-indexed position idx on 0-indexed page pageNum, once decoding returned
baseImage and the geometry lookup returned rects. -/
def mkRecord (pageNum idx : Nat) (baseImage : BaseImage) (rects : List Rect) : Record :=
  { pageNumber := pageNum + 1
    imageIndex := idx
    format := baseImage.ext
    base64 := b64encode baseImage.image
    bbox := bboxOfRects rects }

/-- The body of the per-usage iteration (lines 40-73 of the script): decode
the xref to bytes and format, resolve the rectangles, build the bbox,
base64-encode, and build the record. -/
def extractUsage (doc : FitzDoc) (page : FitzPage) (pageNum idx : Nat)
    (img : ImgEntry) : Except String Record :=
  match doc.extract_image img.xref with
  | .error e => .error e
  | .ok baseImage =>
      match page.get_image_rects img.xref with
      | .error e => .error e
      | .ok rects => .ok (mkRecord pageNum idx baseImage rects)

/-- The enumerate loop over a page's image list (line 39 of the script),
carrying the running image index. -/
def extractUsages (doc : FitzDoc) (page : FitzPage) (pageNum : Nat) :
    Nat → List ImgEntry → Except String (List Record)
  | _, [] => .ok []
  | idx, img :: rest =>
      match extractUsage doc page pageNum idx img with
      | .error e => .error e
      | .ok rec =>
          match extractUsages doc page pageNum (idx + 1) rest with
          | .error e => .error e
          | .ok recs => .ok (rec :: recs)

/-- Processing of one page (lines 33-73): get the page's image list and run
the per-usage loop starting at index 0. -/
def extractPage (doc : FitzDoc) (pageNum : Nat) (page : FitzPage) :
    Except String (List Record) :=
  match page.get_images with
  | .error e => .error e
  | .ok imageList => extractUsages doc page pageNum 0 imageList

/-- The page loop (line 32): pages in document order, appending each page's
records to the running result list. -/
def extractPages (doc : FitzDoc) : Nat → List FitzPage → Except String (List Record)
  | _, [] => .ok []
  | pageNum, page :: rest =>
      match extractPage doc pageNum page with
      | .error e => .error e
      | .ok recs =>
          match extractPages doc (pageNum + 1) rest with
          | .error e => .error e
          | .ok more => .ok (recs ++ more)

/-- The body of the try block of extract_images_from_pdf before any
rewrapping: open the document and run the page loop.  Its error value is
the original exception's message. -/
def rawExtract (env : FitzEnv) (pdf_path : String) : Except String (List Record) :=
  match env.openDoc pdf_path with
  | .error e => .error e
  | .ok doc => extractPages doc 0 doc.pages

/-- The message of the exception re-raised at line 80 of the script. -/
def wrapFailure (e : String) : String :=
  "Failed to extract images: " ++ e

/-- Observable outcome of one call of extract_images_from_pdf: its result
(returned list or raised exception message), whether fitz.open succeeded,
and whether doc.close() was called before the routine returned or raised. -/
structure RunOutcome where
  result : Except String (List Record)
  openedDoc : Bool
  closedDoc : Bool
  deriving DecidableEq

/-- extract_images_from_pdf (lines 15-80): the try block opens the document,
runs the page loop, calls doc.close() and returns; the except block at
lines 79-80 re-raises any exception wrapped once, without reaching the
doc.close() call. -/
def extract_images_from_pdf (env : FitzEnv) (pdf_path : String) : RunOutcome :=
  match env.openDoc pdf_path with
  | .error e =>
      { result := .error (wrapFailure e), openedDoc := false, closedDoc := false }
  | .ok doc =>
      match extractPages doc 0 doc.pages with
      | .ok recs =>
          { result := .ok recs, openedDoc := true, closedDoc := true }
      | .error e =>
          { result := .error (wrapFailure e), openedDoc := true, closedDoc := false }

/-- The success envelope written to standard output at line 102: the JSON
object with success true, totalImages and images. -/
structure SuccessEnvelope where
  totalImages : Nat
  images : List Record
  deriving DecidableEq

/-- What main may write to standard error: the plain-text usage line of
line 86, or the JSON failure envelope of lines 107-112 (success false plus
the error string). -/
inductive StdErrOut where
  | usageText (msg : String)
  | failureEnvelope (error : String)
  deriving DecidableEq

/-- Observable outcome of main: the JSON envelope on standard output if any,
what was written to standard error if anything, and the process exit code. -/
structure ProcResult where
  stdoutJson : Option SuccessEnvelope
  stderrOut : Option StdErrOut
  exitCode : Nat
  deriving DecidableEq

/-- The usage line printed at line 86 of the script. -/
def usageMsg : String :=
  "Usage: python extract_images.py <pdf_path>"

/-- main (lines 83-113): argv is the full sys.argv including the program
name.  Wrong argument count prints the usage line to standard error and
exits 1 before any PDF work; otherwise the extraction outcome is turned
into the success envelope on standard output with exit 0, or the failure
envelope on standard error with exit 1. -/
def mainRun (env : FitzEnv) (argv : List String) : ProcResult :=
  if argv.length ≠ 2 then
    { stdoutJson := none, stderrOut := some (StdErrOut.usageText usageMsg), exitCode := 1 }
  else
    match (extract_images_from_pdf env (argv.getD 1 "")).result with
    | .ok images =>
        { stdoutJson := some { totalImages := images.length, images := images }
          stderrOut := none
          exitCode := 0 }
    | .error e =>
        { stdoutJson := none
          stderrOut := some (StdErrOut.failureEnvelope e)
          exitCode := 1 }

/-- A concrete image usage: cross-reference number 7. -/
def imgW : ImgEntry := ⟨7⟩

/-- A concrete decoded image: three raw bytes and the format tag png. -/
def baseImageW : BaseImage := ⟨[255, 16, 0], "png"⟩

/-- A concrete placement rectangle. -/
def rectW : Rect := ⟨1, 2, 3, 4⟩

/-- A concrete page holding one usage of xref 7 placed at rectW. -/
def pageW : FitzPage :=
  ⟨.ok [imgW], fun x => if x = 7 then .ok [rectW] else .ok []⟩

/-- A concrete document with one page, decoding xref 7 to baseImageW. -/
def docW : FitzDoc :=
  ⟨[pageW], fun x => if x = 7 then .ok baseImageW else .error "bad xref"⟩

/-- A concrete library environment that opens good.pdf to docW. -/
def envW : FitzEnv :=
  ⟨fun p => if p = "good.pdf" then .ok docW else .error "cannot open"⟩

/-- The record the script extracts from docW. -/
def recW : Record := ⟨1, 0, "png", b64encode [255, 16, 0], ⟨1, 2, 3, 4⟩⟩

/-- A concrete page holding the same xref 7 twice (the same image resource
placed twice on the page). -/
def pageDupW : FitzPage :=
  ⟨.ok [imgW, imgW], fun x => if x = 7 then .ok [rectW] else .ok []⟩

/-- A concrete document whose only page uses xref 7 twice. -/
def docDupW : FitzDoc :=
  ⟨[pageDupW], fun x => if x = 7 then .ok baseImageW else .error "bad xref"⟩

/-- A concrete page whose image decode will fail. -/
def pageBadW : FitzPage := ⟨.ok [imgW], fun _ => .ok []⟩

/-- A concrete document that opens fine but raises on image decode. -/
def docBadW : FitzDoc := ⟨[pageBadW], fun _ => .error "decode failed"⟩

/-- A concrete library environment whose documents open but fail to decode. -/
def envBadW : FitzEnv := ⟨fun _ => .ok docBadW⟩

/-- A concrete page with no images. -/
def pageEmptyW : FitzPage := ⟨.ok [], fun _ => .ok []⟩

/-- A concrete library environment opening a two-page document with no
embedded images at all. -/
def envEmptyW : FitzEnv :=
  ⟨fun _ => .ok ⟨[pageEmptyW, pageEmptyW], fun _ => .error "bad xref"⟩⟩

/-- Looking up the character of a 6-bit value and decoding it back is the
identity below 64. -/
theorem b64CharVal_b64Char : ∀ v : Nat, v < 64 → b64CharVal (b64Char v) = some v := by
  decide

/-- Characters of the alphabet are never the padding character. -/
theorem b64Char_ne_pad : ∀ v : Nat, v < 64 → b64Char v ≠ '=' := by
  decide

/-- Characters of 6-bit values lie in the standard alphabet. -/
theorem b64Char_mem : ∀ v : Nat, v < 64 → b64Char v ∈ b64AlphabetChars := by
  decide

/-- The reference decoder inverts the encoder on byte sequences. -/
theorem b64decode_b64encode :
    ∀ l : List Nat, (∀ b ∈ l, b < 256) → b64decode (b64encode l) = some l
  | [], _ => rfl
  | [a], h => by
      have ha : a < 256 := h a (by simp)
      have h1 : a / 4 < 64 := by omega
      have h2 : a % 4 * 16 < 64 := by omega
      simp only [b64encode, b64decode, b64decodeQuad,
        b64CharVal_b64Char _ h1, b64CharVal_b64Char _ h2, if_pos rfl]
      simp
      omega
  | [a, b], h => by
      have ha : a < 256 := h a (by simp)
      have hb : b < 256 := h b (by simp)
      have h1 : a / 4 < 64 := by omega
      have h2 : a % 4 * 16 + b / 16 < 64 := by omega
      have h3 : b % 16 * 4 < 64 := by omega
      have hne : b64Char (b % 16 * 4) ≠ '=' := b64Char_ne_pad _ h3
      simp only [b64encode, b64decode, b64decodeQuad,
        b64CharVal_b64Char _ h1, b64CharVal_b64Char _ h2, b64CharVal_b64Char _ h3,
        if_neg hne, if_pos rfl]
      simp
      omega
  | a :: b :: c :: rest, h => by
      have ha : a < 256 := h a (by simp)
      have hb : b < 256 := h b (by simp)
      have hc : c < 256 := h c (by simp)
      have ih := b64decode_b64encode rest (fun x hx => h x (by simp [hx]))
      have h1 : a / 4 < 64 := by omega
      have h2 : a % 4 * 16 + b / 16 < 64 := by omega
      have h3 : b % 16 * 4 + c / 64 < 64 := by omega
      have h4 : c % 64 < 64 := by omega
      have hne3 : b64Char (b % 16 * 4 + c / 64) ≠ '=' := b64Char_ne_pad _ h3
      have hne4 : b64Char (c % 64) ≠ '=' := b64Char_ne_pad _ h4
      simp only [b64encode, b64decode, b64decodeQuad,
        b64CharVal_b64Char _ h1, b64CharVal_b64Char _ h2,
        b64CharVal_b64Char _ h3, b64CharVal_b64Char _ h4,
        if_neg hne3, if_neg hne4, ih]
      simp
      omega

/-- Every character the encoder emits is an alphabet character or padding. -/
theorem b64encode_chars :
    ∀ l : List Nat, (∀ b ∈ l, b < 256) →
      ∀ c ∈ b64encode l, c ∈ b64AlphabetChars ∨ c = '='
  | [], _ => by simp [b64encode]
  | [a], h => by
      have ha : a < 256 := h a (by simp)
      intro c hc
      simp only [b64encode, List.mem_cons, List.not_mem_nil, or_false] at hc
      rcases hc with rfl | rfl | rfl | rfl
      · exact Or.inl (b64Char_mem _ (by omega))
      · exact Or.inl (b64Char_mem _ (by omega))
      · exact Or.inr rfl
      · exact Or.inr rfl
  | [a, b], h => by
      have ha : a < 256 := h a (by simp)
      have hb : b < 256 := h b (by simp)
      intro c hc
      simp only [b64encode, List.mem_cons, List.not_mem_nil, or_false] at hc
      rcases hc with rfl | rfl | rfl | rfl
      · exact Or.inl (b64Char_mem _ (by omega))
      · exact Or.inl (b64Char_mem _ (by omega))
      · exact Or.inl (b64Char_mem _ (by omega))
      · exact Or.inr rfl
  | a :: b :: c :: rest, h => by
      have ha : a < 256 := h a (by simp)
      have hb : b < 256 := h b (by simp)
      have hc : c < 256 := h c (by simp)
      have ih := b64encode_chars rest (fun x hx => h x (by simp [hx]))
      intro x hx
      simp only [b64encode, List.mem_cons] at hx
      rcases hx with rfl | rfl | rfl | rfl | hx
      · exact Or.inl (b64Char_mem _ (by omega))
      · exact Or.inl (b64Char_mem _ (by omega))
      · exact Or.inl (b64Char_mem _ (by omega))
      · exact Or.inl (b64Char_mem _ (by omega))
      · exact ih x hx

/-- Inversion of one successful per-usage extraction: both library calls
succeeded and the record is the one built from their results. -/
theorem extractUsage_ok (doc : FitzDoc) (page : FitzPage) (pageNum idx : Nat)
    (img : ImgEntry) (rec : Record)
    (h : extractUsage doc page pageNum idx img = .ok rec) :
    ∃ bi rects, doc.extract_image img.xref = .ok bi ∧
      page.get_image_rects img.xref = .ok rects ∧
      rec = mkRecord pageNum idx bi rects := by
  unfold extractUsage at h
  split at h
  · exact Except.noConfusion h
  · rename_i bi hbi
    split at h
    · exact Except.noConfusion h
    · rename_i rects hrects
      exact ⟨bi, rects, hbi, hrects, (Except.ok.inj h).symm⟩

/-- Inversion of the usage loop on a nonempty image list. -/
theorem extractUsages_cons_ok (doc : FitzDoc) (page : FitzPage) (pageNum idx : Nat)
    (img : ImgEntry) (rest : List ImgEntry) (rs : List Record)
    (h : extractUsages doc page pageNum idx (img :: rest) = .ok rs) :
    ∃ rec recs, extractUsage doc page pageNum idx img = .ok rec ∧
      extractUsages doc page pageNum (idx + 1) rest = .ok recs ∧
      rs = rec :: recs := by
  unfold extractUsages at h
  split at h
  · exact Except.noConfusion h
  · rename_i rec hrec
    split at h
    · exact Except.noConfusion h
    · rename_i recs hrecs
      exact ⟨rec, recs, hrec, hrecs, (Except.ok.inj h).symm⟩

/-- Inversion of one successful page extraction. -/
theorem extractPage_ok (doc : FitzDoc) (pn : Nat) (page : FitzPage)
    (rs : List Record) (h : extractPage doc pn page = .ok rs) :
    ∃ imageList, page.get_images = .ok imageList ∧
      extractUsages doc page pn 0 imageList = .ok rs := by
  unfold extractPage at h
  split at h
  · exact Except.noConfusion h
  · rename_i imageList himgs
    exact ⟨imageList, himgs, h⟩

/-- Inversion of the page loop on a nonempty page list. -/
theorem extractPages_cons_ok (doc : FitzDoc) (pn : Nat) (page : FitzPage)
    (rest : List FitzPage) (recs : List Record)
    (h : extractPages doc pn (page :: rest) = .ok recs) :
    ∃ rs more, extractPage doc pn page = .ok rs ∧
      extractPages doc (pn + 1) rest = .ok more ∧
      recs = rs ++ more := by
  unfold extractPages at h
  split at h
  · exact Except.noConfusion h
  · rename_i rs hrs
    split at h
    · exact Except.noConfusion h
    · rename_i more hmore
      exact ⟨rs, more, hrs, hmore, (Except.ok.inj h).symm⟩

/-- A successful routine result means fitz.open succeeded and the page loop
returned exactly that record list. -/
theorem extract_result_ok (env : FitzEnv) (path : String) (recs : List Record)
    (h : (extract_images_from_pdf env path).result = .ok recs) :
    ∃ doc, env.openDoc path = .ok doc ∧ extractPages doc 0 doc.pages = .ok recs := by
  unfold extract_images_from_pdf at h
  split at h
  · exact Except.noConfusion h
  · rename_i doc hdoc
    split at h
    · rename_i rs hrs
      exact ⟨doc, hdoc, by rw [hrs, Except.ok.inj h]⟩
    · exact Except.noConfusion h

/-- A failure of the try block surfaces as the wrapped failure result. -/
theorem extract_result_error (env : FitzEnv) (path : String) (e : String)
    (h : rawExtract env path = .error e) :
    (extract_images_from_pdf env path).result = .error (wrapFailure e) := by
  unfold rawExtract at h
  unfold extract_images_from_pdf
  split at h
  · rename_i e2 he
    rw [Except.error.inj h]
  · rename_i doc hdoc
    rw [h]

/-- Every record a successful usage loop returns comes from one entry of the
image list, with both library calls succeeding on that entry. -/
theorem extractUsages_mem (doc : FitzDoc) (page : FitzPage) (pageNum : Nat) :
    ∀ (idx : Nat) (l : List ImgEntry) (rs : List Record),
      extractUsages doc page pageNum idx l = .ok rs →
      ∀ rec ∈ rs, ∃ img ∈ l, ∃ i bi rects,
        doc.extract_image img.xref = .ok bi ∧
        page.get_image_rects img.xref = .ok rects ∧
        rec = mkRecord pageNum i bi rects := by
  intro idx l
  induction l generalizing idx with
  | nil =>
      intro rs h rec hrec
      unfold extractUsages at h
      rw [← Except.ok.inj h] at hrec
      exact absurd hrec (List.not_mem_nil rec)
  | cons img rest ih =>
      intro rs h rec hrec
      obtain ⟨r, recs, hr, hrecs, rfl⟩ :=
        extractUsages_cons_ok doc page pageNum idx img rest rs h
      rcases List.mem_cons.mp hrec with rfl | hmem
      · obtain ⟨bi, rects, hbi, hrects, heq⟩ :=
          extractUsage_ok doc page pageNum idx img rec hr
        exact ⟨img, List.mem_cons_self img rest, idx, bi, rects, hbi, hrects, heq⟩
      · obtain ⟨img2, himg2, i, bi, rects, hbi, hrects, heq⟩ :=
          ih (idx + 1) recs hrecs rec hmem
        exact ⟨img2, List.mem_cons_of_mem img himg2, i, bi, rects, hbi, hrects, heq⟩

/-- Every record of a successful full run comes from one page and one usage
on that page, with all three library calls succeeding. -/
theorem extractPages_mem (doc : FitzDoc) :
    ∀ (pn : Nat) (l : List FitzPage) (recs : List Record),
      extractPages doc pn l = .ok recs →
      ∀ rec ∈ recs, ∃ page ∈ l, ∃ imageList, page.get_images = .ok imageList ∧
        ∃ img ∈ imageList, ∃ rects bi,
          doc.extract_image img.xref = .ok bi ∧
          page.get_image_rects img.xref = .ok rects ∧
          rec.format = bi.ext ∧ rec.base64 = b64encode bi.image ∧
          rec.bbox = bboxOfRects rects := by
  intro pn l
  induction l generalizing pn with
  | nil =>
      intro recs h rec hrec
      unfold extractPages at h
      rw [← Except.ok.inj h] at hrec
      exact absurd hrec (List.not_mem_nil rec)
  | cons page rest ih =>
      intro recs h rec hrec
      obtain ⟨rs, more, hrs, hmore, rfl⟩ := extractPages_cons_ok doc pn page rest recs h
      rcases List.mem_append.mp hrec with hmem | hmem
      · obtain ⟨imageList, himgs, husages⟩ := extractPage_ok doc pn page rs hrs
        obtain ⟨img, himg, i, bi, rects, hbi, hrects, heq⟩ :=
          extractUsages_mem doc page pn 0 imageList rs husages rec hmem
        exact ⟨page, List.mem_cons_self page rest, imageList, himgs, img, himg, rects, bi,
          hbi, hrects, by rw [heq]; rfl, by rw [heq]; rfl, by rw [heq]; rfl⟩
      · obtain ⟨page2, hpage2, rest_claim⟩ := ih (pn + 1) more hmore rec hmem
        exact ⟨page2, List.mem_cons_of_mem page hpage2, rest_claim⟩

/-- A successful usage loop starting at index idx returns records whose
imageIndex values are exactly idx, idx+1, ... in order, all carrying the
1-indexed page number. -/
theorem extractUsages_indices (doc : FitzDoc) (page : FitzPage) (pageNum : Nat) :
    ∀ (idx : Nat) (l : List ImgEntry) (rs : List Record),
      extractUsages doc page pageNum idx l = .ok rs →
      rs.map (fun r => r.imageIndex) = List.range' idx l.length ∧
      ∀ rec ∈ rs, rec.pageNumber = pageNum + 1 := by
  intro idx l
  induction l generalizing idx with
  | nil =>
      intro rs h
      unfold extractUsages at h
      rw [← Except.ok.inj h]
      refine ⟨rfl, ?_⟩
      intro rec hrec
      exact absurd hrec (List.not_mem_nil rec)
  | cons img rest ih =>
      intro rs h
      obtain ⟨rec, recs, hrec, hrecs, rfl⟩ :=
        extractUsages_cons_ok doc page pageNum idx img rest rs h
      obtain ⟨hmap, hpage⟩ := ih (idx + 1) recs hrecs
      obtain ⟨bi, rects, hbi, hrects, rfl⟩ :=
        extractUsage_ok doc page pageNum idx img rec hrec
      constructor
      · simp only [List.map_cons, hmap, List.length_cons, List.range'_succ, mkRecord]
      · intro r hr
        rcases List.mem_cons.mp hr with rfl | hmem
        · rfl
        · exact hpage r hmem

/-- Structure of a successful page loop starting at 0-indexed page pn: page
numbers are within bounds and ordered, and for each fixed page number the
imageIndex values of its records are exactly 0..k-1 in output order. -/
theorem extractPages_struct (doc : FitzDoc) :
    ∀ (pn : Nat) (l : List FitzPage) (recs : List Record),
      extractPages doc pn l = .ok recs →
      (∀ rec ∈ recs, pn + 1 ≤ rec.pageNumber ∧ rec.pageNumber ≤ pn + l.length) ∧
      List.Pairwise (fun a b => a.pageNumber ≤ b.pageNumber) recs ∧
      ∀ p : Nat,
        (recs.filter (fun r => r.pageNumber == p)).map (fun r => r.imageIndex) =
          List.range ((recs.filter (fun r => r.pageNumber == p)).length) := by
  intro pn l
  induction l generalizing pn with
  | nil =>
      intro recs h
      unfold extractPages at h
      rw [← Except.ok.inj h]
      refine ⟨?_, List.Pairwise.nil, ?_⟩
      · intro rec hrec
        exact absurd hrec (List.not_mem_nil rec)
      · intro p
        rfl
  | cons page rest ih =>
      intro recs h
      obtain ⟨rs, more, hrs, hmore, rfl⟩ := extractPages_cons_ok doc pn page rest recs h
      obtain ⟨imageList, himgs, husages⟩ := extractPage_ok doc pn page rs hrs
      obtain ⟨hmap, hpage⟩ := extractUsages_indices doc page pn 0 imageList rs husages
      obtain ⟨ihbound, ihpair, ihfilter⟩ := ih (pn + 1) more hmore
      have hrs_len : rs.length = imageList.length := by
        have hlen := congrArg List.length hmap
        simpa using hlen
      refine ⟨?_, ?_, ?_⟩
      · intro rec hrec
        rcases List.mem_append.mp hrec with hmem | hmem
        · rw [hpage rec hmem]
          simp only [List.length_cons]
          omega
        · have hb := ihbound rec hmem
          simp only [List.length_cons]
          omega
      · rw [List.pairwise_append]
        refine ⟨?_, ihpair, ?_⟩
        · apply List.pairwise_of_forall_mem_list
          intro a ha b hb
          rw [hpage a ha, hpage b hb]
        · intro a ha b hb
          rw [hpage a ha]
          have := (ihbound b hb).1
          omega
      · intro p
        rw [List.filter_append, List.map_append]
        by_cases hp : p = pn + 1
        · subst hp
          have hfrs : rs.filter (fun r => r.pageNumber == pn + 1) = rs := by
            apply List.filter_eq_self.mpr
            intro a ha
            simp [hpage a ha]
          have hfmore : more.filter (fun r => r.pageNumber == pn + 1) = [] := by
            apply List.filter_eq_nil_iff.mpr
            intro a ha
            have hb := (ihbound a ha).1
            simp only [beq_iff_eq]
            omega
          rw [hfrs, hfmore]
          simp only [List.map_nil, List.append_nil]
          rw [hmap, hrs_len]
          simp [List.range_eq_range']
        · have hfrs : rs.filter (fun r => r.pageNumber == p) = [] := by
            apply List.filter_eq_nil_iff.mpr
            intro a ha
            rw [hpage a ha]
            simp only [beq_iff_eq]
            omega
          rw [hfrs]
          simp only [List.map_nil, List.nil_append]
          exact ihfilter p

/-- A page list all of whose pages report an empty image list extracts to the
empty record list. -/
theorem extractPages_empty (doc : FitzDoc) :
    ∀ (pn : Nat) (l : List FitzPage),
      (∀ page ∈ l, page.get_images = .ok []) →
      extractPages doc pn l = .ok [] := by
  intro pn l
  induction l generalizing pn with
  | nil => intro _; rfl
  | cons page rest ih =>
      intro hall
      have h1 : extractPage doc pn page = .ok [] := by
        unfold extractPage
        rw [hall page (List.mem_cons_self page rest)]
        rfl

      have h2 : extractPages doc (pn + 1) rest = .ok [] :=
        ih (pn + 1) (fun q hq => hall q (List.mem_cons_of_mem page hq))
      unfold extractPages
      rw [h1, h2]
      rfl

/-- C1: the claim says the opened document is closed on every exit path of
the extraction routine, including error paths.  The code does not do this:
on the concrete environment envBadW, fitz.open succeeds, image decoding then
raises, the routine re-raises the wrapped failure, and the doc.close() call
at line 75 is never reached, while on the succeeding environment envW it is.
This exhibits the missing close on the error path. -/
theorem C1_doc_not_closed_on_error_path :
    (extract_images_from_pdf envBadW "f.pdf").openedDoc = true ∧
    (extract_images_from_pdf envBadW "f.pdf").closedDoc = false ∧
    (extract_images_from_pdf envBadW "f.pdf").result =
      .error (wrapFailure "decode failed") ∧
    (extract_images_from_pdf envW "good.pdf").closedDoc = true :=
  ⟨rfl, rfl, rfl, rfl⟩

/-- C2: when any step of the try block (open, page enumeration, image
decode, or geometry resolution) fails with original message e, the routine's
result is the single generic extraction failure whose text is the fixed
prefix followed by the original message, and no record list whatsoever is
returned. -/
theorem C2_all_or_nothing (env : FitzEnv) (path : String) (e : String)
    (h : rawExtract env path = .error e) :
    (extract_images_from_pdf env path).result = .error (wrapFailure e) ∧
    (∀ recs : List Record, (extract_images_from_pdf env path).result ≠ .ok recs) ∧
    wrapFailure e = "Failed to extract images: " ++ e := by
  have hres := extract_result_error env path e h
  refine ⟨hres, ?_, rfl⟩
  intro recs hok
  rw [hres] at hok
  exact Except.noConfusion hok

/-- Witness for C2 on the concrete environment whose image decode fails. -/
theorem C2_witness :
    (extract_images_from_pdf envBadW "f.pdf").result =
      .error (wrapFailure "decode failed") :=
  (C2_all_or_nothing envBadW "f.pdf" "decode failed" (by decide)).1

/-- C3: every record of a successful extraction takes its bounding box from
the geometry lookup made for its usage: the first returned rectangle when
the lookup returned at least one, and the all-zero x/y/width/height box when
it returned none. -/
theorem C3_bbox_first_rect_or_zero (env : FitzEnv) (path : String)
    (recs : List Record) (rec : Record)
    (hok : (extract_images_from_pdf env path).result = .ok recs)
    (hmem : rec ∈ recs) :
    ∃ doc, env.openDoc path = .ok doc ∧
      ∃ page ∈ doc.pages, ∃ imageList, page.get_images = .ok imageList ∧
        ∃ img ∈ imageList, ∃ rects,
          page.get_image_rects img.xref = .ok rects ∧
          rec.bbox = bboxOfRects rects ∧
          (∀ r rest2, rects = r :: rest2 →
            rec.bbox = { x := r.x0, y := r.y0, width := r.width, height := r.height }) ∧
          (rects = [] → rec.bbox = { x := 0, y := 0, width := 0, height := 0 }) := by
  obtain ⟨doc, hdoc, hpages⟩ := extract_result_ok env path recs hok
  obtain ⟨page, hpage, imageList, himgs, img, himg, rects, bi, hbi, hrects, hfmt, hb64, hbbox⟩ :=
    extractPages_mem doc 0 doc.pages recs hpages rec hmem
  refine ⟨doc, hdoc, page, hpage, imageList, himgs, img, himg, rects, hrects, hbbox, ?_, ?_⟩
  · intro r rest2 hr
    rw [hbbox, hr]
    rfl
  · intro hr
    rw [hbbox, hr]
    rfl

/-- Witness for C3 on the concrete one-image environment. -/
theorem C3_witness :
    ∃ doc, envW.openDoc "good.pdf" = .ok doc ∧
      ∃ page ∈ doc.pages, ∃ imageList, page.get_images = .ok imageList ∧
        ∃ img ∈ imageList, ∃ rects,
          page.get_image_rects img.xref = .ok rects ∧
          recW.bbox = bboxOfRects rects ∧
          (∀ r rest2, rects = r :: rest2 →
            recW.bbox = { x := r.x0, y := r.y0, width := r.width, height := r.height }) ∧
          (rects = [] → recW.bbox = { x := 0, y := 0, width := 0, height := 0 }) :=
  C3_bbox_first_rect_or_zero envW "good.pdf" [recW] recW (by decide) (by decide)

/-- C4: a page whose image list holds the same resource twice yields two
separate records with equal format and base64 fields, imageIndex 0 and 1,
and each record's bounding box is built from the head of the rectangle list
returned by the geometry lookup performed for its own usage. -/
theorem C4_duplicate_resource_two_records (doc : FitzDoc) (page : FitzPage)
    (pn : Nat) (img : ImgEntry) (bi : BaseImage) (rects : List Rect)
    (himgs : page.get_images = .ok [img, img])
    (hbi : doc.extract_image img.xref = .ok bi)
    (hrects : page.get_image_rects img.xref = .ok rects) :
    ∃ rec0 rec1, extractPage doc pn page = .ok [rec0, rec1] ∧
      rec0.format = rec1.format ∧ rec0.base64 = rec1.base64 ∧
      rec0.imageIndex = 0 ∧ rec1.imageIndex = 1 ∧
      rec0.pageNumber = pn + 1 ∧ rec1.pageNumber = pn + 1 ∧
      rec0.bbox = bboxOfRects rects ∧ rec1.bbox = bboxOfRects rects := by
  refine ⟨mkRecord pn 0 bi rects, mkRecord pn 1 bi rects, ?_,
    rfl, rfl, rfl, rfl, rfl, rfl, rfl, rfl⟩
  simp only [extractPage, extractUsages, extractUsage, himgs, hbi, hrects]

/-- Witness for C4 on the concrete duplicated-resource environment. -/
theorem C4_witness :
    ∃ rec0 rec1, extractPage docDupW 0 pageDupW = .ok [rec0, rec1] ∧
      rec0.format = rec1.format ∧ rec0.base64 = rec1.base64 ∧
      rec0.imageIndex = 0 ∧ rec1.imageIndex = 1 ∧
      rec0.pageNumber = 1 ∧ rec1.pageNumber = 1 ∧
      rec0.bbox = bboxOfRects [rectW] ∧ rec1.bbox = bboxOfRects [rectW] :=
  C4_duplicate_resource_two_records docDupW pageDupW 0 imgW baseImageW [rectW]
    (by decide) (by decide) (by decide)

/-- C5: with exactly one positional argument, the process outcome is either
the success envelope on standard output with exit code 0 and nothing on
standard error, or the failure envelope on standard error with exit code 1
and nothing on standard output; the two outcomes are mutually exclusive and
each envelope only ever appears on its own stream. -/
theorem C5_success_failure_mutually_exclusive (env : FitzEnv) (argv : List String)
    (h : argv.length = 2) :
    ((mainRun env argv).exitCode = 0 ∧
      (∃ se, (mainRun env argv).stdoutJson = some se) ∧
      (mainRun env argv).stderrOut = none) ∨
    ((mainRun env argv).exitCode = 1 ∧
      (mainRun env argv).stdoutJson = none ∧
      ∃ e, (mainRun env argv).stderrOut = some (StdErrOut.failureEnvelope e)) := by
  unfold mainRun
  rw [if_neg (by omega)]
  split
  · left
    exact ⟨rfl, ⟨_, rfl⟩, rfl⟩
  · right
    rename_i e he
    exact ⟨rfl, rfl, ⟨e, rfl⟩⟩

/-- Witness for C5 on the concrete succeeding environment. -/
theorem C5_witness :
    ((mainRun envW ["prog", "good.pdf"]).exitCode = 0 ∧
      (∃ se, (mainRun envW ["prog", "good.pdf"]).stdoutJson = some se) ∧
      (mainRun envW ["prog", "good.pdf"]).stderrOut = none) ∨
    ((mainRun envW ["prog", "good.pdf"]).exitCode = 1 ∧
      (mainRun envW ["prog", "good.pdf"]).stdoutJson = none ∧
      ∃ e, (mainRun envW ["prog", "good.pdf"]).stderrOut =
        some (StdErrOut.failureEnvelope e)) :=
  C5_success_failure_mutually_exclusive envW ["prog", "good.pdf"] (by decide)

/-- C6: in a successful extraction every record's pageNumber lies between 1
and the page count of the opened document, records are ordered by page
number, and for each fixed page number p the imageIndex values of the
records on p are exactly 0..k-1 in output order, restarting at 0 on every
page. -/
theorem C6_ordering_and_indices (env : FitzEnv) (path : String)
    (recs : List Record)
    (hok : (extract_images_from_pdf env path).result = .ok recs) :
    ∃ doc, env.openDoc path = .ok doc ∧
      (∀ rec ∈ recs, 1 ≤ rec.pageNumber ∧ rec.pageNumber ≤ doc.pages.length) ∧
      List.Pairwise (fun a b => a.pageNumber ≤ b.pageNumber) recs ∧
      ∀ p : Nat,
        (recs.filter (fun r => r.pageNumber == p)).map (fun r => r.imageIndex) =
          List.range ((recs.filter (fun r => r.pageNumber == p)).length) := by
  obtain ⟨doc, hdoc, hpages⟩ := extract_result_ok env path recs hok
  obtain ⟨hbound, hpair, hfilter⟩ := extractPages_struct doc 0 doc.pages recs hpages
  refine ⟨doc, hdoc, ?_, hpair, hfilter⟩
  intro rec hrec
  have hb := hbound rec hrec
  omega

/-- Witness for C6 on the concrete one-image environment. -/
theorem C6_witness :
    ∃ doc, envW.openDoc "good.pdf" = .ok doc ∧
      (∀ rec ∈ [recW], 1 ≤ rec.pageNumber ∧ rec.pageNumber ≤ doc.pages.length) ∧
      List.Pairwise (fun a b => a.pageNumber ≤ b.pageNumber) [recW] ∧
      ∀ p : Nat,
        (([recW].filter (fun r => r.pageNumber == p)).map (fun r => r.imageIndex)) =
          List.range (([recW].filter (fun r => r.pageNumber == p)).length) :=
  C6_ordering_and_indices envW "good.pdf" [recW] (by decide)

/-- C7: whenever main writes a success envelope, its totalImages field
equals the length of its images list; and on a document with no embedded
images at all, main's outcome is exactly the success envelope with
totalImages 0, the empty image list, nothing on standard error, and exit
code 0. -/
theorem C7_totalImages_eq_length :
    (∀ (env : FitzEnv) (argv : List String) (se : SuccessEnvelope),
        (mainRun env argv).stdoutJson = some se →
        se.totalImages = se.images.length) ∧
    (∀ (env : FitzEnv) (prog path : String) (doc : FitzDoc),
        env.openDoc path = .ok doc →
        (∀ page ∈ doc.pages, page.get_images = .ok []) →
        mainRun env [prog, path] =
          { stdoutJson := some { totalImages := 0, images := [] }
            stderrOut := none
            exitCode := 0 }) := by
  constructor
  · intro env argv se h
    unfold mainRun at h
    by_cases hlen : argv.length ≠ 2
    · rw [if_pos hlen] at h
      exact Option.noConfusion h
    · rw [if_neg hlen] at h
      split at h
      · rename_i images hres
        rw [← Option.some.inj h]
      · exact Option.noConfusion h
  · intro env prog path doc hdoc hempty
    have hpages := extractPages_empty doc 0 doc.pages hempty
    have hext : (extract_images_from_pdf env path).result = .ok [] := by
      unfold extract_images_from_pdf
      simp only [hdoc, hpages]
    unfold mainRun
    rw [if_neg (by simp)]
    have hgd : ([prog, path].getD 1 "") = path := rfl
    simp only [hgd, hext, List.length_nil]

/-- Witness for C7: the success envelope of the concrete one-image run, and
the zero-image run's full outcome. -/
theorem C7_witness :
    (({ totalImages := 1, images := [recW] } : SuccessEnvelope).totalImages =
      ({ totalImages := 1, images := [recW] } : SuccessEnvelope).images.length) ∧
    mainRun envEmptyW ["prog", "empty.pdf"] =
      { stdoutJson := some { totalImages := 0, images := [] }
        stderrOut := none
        exitCode := 0 } := by
  constructor
  · exact C7_totalImages_eq_length.1 envW ["prog", "good.pdf"]
      { totalImages := 1, images := [recW] } (by decide)
  · exact C7_totalImages_eq_length.2 envEmptyW "prog" "empty.pdf"
      ⟨[pageEmptyW, pageEmptyW], fun _ => .error "bad xref"⟩ rfl
      (by
        intro page hp
        cases hp with
        | head => rfl
        | tail _ hp2 =>
            cases hp2 with
            | head => rfl
            | tail _ hp3 => cases hp3)

/-- C8: with any positional argument count other than one, main's outcome is
exactly the plain-text usage line on standard error with exit code 1,
nothing on standard output, and the outcome does not depend on the library
environment at all, so no PDF work is observable. -/
theorem C8_usage_on_wrong_arg_count (env : FitzEnv) (argv : List String)
    (h : argv.length ≠ 2) :
    mainRun env argv =
      { stdoutJson := none
        stderrOut := some (StdErrOut.usageText usageMsg)
        exitCode := 1 } ∧
    ∀ env2 : FitzEnv, mainRun env argv = mainRun env2 argv := by
  constructor
  · unfold mainRun
    rw [if_pos h]
  · intro env2
    unfold mainRun
    rw [if_pos h, if_pos h]

/-- Witness for C8 at the empty argument list. -/
theorem C8_witness :
    mainRun envW [] =
      { stdoutJson := none
        stderrOut := some (StdErrOut.usageText usageMsg)
        exitCode := 1 } :=
  (C8_usage_on_wrong_arg_count envW [] (by decide)).1

/-- C9: every record's base64 field is the base64 encoding of the decoded
raw bytes; the encoding uses the standard alphabet (containing plus and
slash, not the URL-safe dash and underscore) with padding and no line
wrapping, and the reference decoder recovers exactly the raw bytes. -/
theorem C9_base64_round_trip :
    (∀ (doc : FitzDoc) (page : FitzPage) (pageNum idx : Nat) (img : ImgEntry)
        (rec : Record) (bi : BaseImage),
        extractUsage doc page pageNum idx img = .ok rec →
        doc.extract_image img.xref = .ok bi →
        rec.base64 = b64encode bi.image) ∧
    (∀ bytes : List Nat, (∀ b ∈ bytes, b < 256) →
        b64decode (b64encode bytes) = some bytes) ∧
    (∀ bytes : List Nat, (∀ b ∈ bytes, b < 256) →
        ∀ c ∈ b64encode bytes, c ∈ b64AlphabetChars ∨ c = '=') ∧
    (∀ bytes : List Nat, (∀ b ∈ bytes, b < 256) →
        '\n' ∉ b64encode bytes) ∧
    ('+' ∈ b64AlphabetChars ∧ '/' ∈ b64AlphabetChars ∧
      '-' ∉ b64AlphabetChars ∧ '_' ∉ b64AlphabetChars) := by
  refine ⟨?_, b64decode_b64encode, b64encode_chars, ?_, by decide⟩
  · intro doc page pageNum idx img rec bi h hbi
    obtain ⟨bi2, rects, hbi2, hrects, heq⟩ := extractUsage_ok doc page pageNum idx img rec h
    rw [hbi] at hbi2
    rw [heq, Except.ok.inj hbi2]
    rfl
  · intro bytes hb hmem
    rcases b64encode_chars bytes hb _ hmem with hc | hc
    · revert hc
      decide
    · exact absurd hc (by decide)

/-- Witness for C9 on the concrete three-byte image. -/
theorem C9_witness :
    recW.base64 = b64encode baseImageW.image ∧
    b64decode (b64encode [255, 16, 0]) = some [255, 16, 0] ∧
    (('/' : Char) ∈ b64AlphabetChars ∨ ('/' : Char) = '=') ∧
    '\n' ∉ b64encode [255, 16, 0] ∧
    '+' ∈ b64AlphabetChars := by
  obtain ⟨p1, p2, p3, p4, p5⟩ := C9_base64_round_trip
  exact ⟨p1 docW pageW 0 0 imgW recW baseImageW (by decide) (by decide),
    p2 [255, 16, 0] (by decide),
    p3 [255, 16, 0] (by decide) '/' (by decide),
    p4 [255, 16, 0] (by decide),
    p5.1⟩

/-- C10: any failure inside the extraction routine reaches the failure
envelope on standard error carrying exactly the fixed prefix followed by the
original message, applied once; main adds no further wrapping, exits 1, and
writes nothing to standard output. -/
theorem C10_error_message_single_wrap (env : FitzEnv) (prog path e : String)
    (h : rawExtract env path = .error e) :
    (mainRun env [prog, path]).stderrOut =
      some (StdErrOut.failureEnvelope ("Failed to extract images: " ++ e)) ∧
    (mainRun env [prog, path]).stdoutJson = none ∧
    (mainRun env [prog, path]).exitCode = 1 := by
  have hres := extract_result_error env path e h
  unfold mainRun
  rw [if_neg (by simp)]
  have hgd : ([prog, path].getD 1 "") = path := rfl
  simp only [hgd, hres]
  refine ⟨?_, ?_, ?_⟩ <;> first | rfl | trivial

/-- Witness for C10 on the concrete failing-decode environment. -/
theorem C10_witness :
    (mainRun envBadW ["prog", "f.pdf"]).stderrOut =
      some (StdErrOut.failureEnvelope ("Failed to extract images: " ++ "decode failed")) ∧
    (mainRun envBadW ["prog", "f.pdf"]).stdoutJson = none ∧
    (mainRun envBadW ["prog", "f.pdf"]).exitCode = 1 :=
  C10_error_message_single_wrap envBadW "prog" "f.pdf" "decode failed" (by decide)

end LumaExtract
